import Mathlib

/-
Verification of the libsigrok digilent-analogdiscovery2 driver
(protocol logic in the single compilation unit holding decode_trigger,
digilent_analogdiscovery2_start, digilent_analogdiscovery2_receive_data,
digilent_analogdiscovery2_open, digilent_analogdiscovery2_scan, and the
config_set samplerate branch of api.c).

The C code is shallowly embedded: machine integers become Nat/Int (all
mask values stay below 2^16, so no wraparound is reachable), native SDK
calls become entries of an explicit trace, `assert` failures and null
dereferences become an explicit `Crash`, and the sr_warn/sr_err logging
side channel becomes counters in the result records.
-/

namespace AD2

/-- Return codes from libsigrok.h used by this driver. -/
def SR_OK : Int := 0

/-- Function argument error, libsigrok.h. -/
def SR_ERR_ARG : Int := -3

/-- Errors hinting at internal bugs, libsigrok.h; returned by
digilent_analogdiscovery2_open on an already-open or failed open. -/
def SR_ERR_BUG : Int := -4

/-- Device is closed, but must be open, libsigrok.h. -/
def SR_ERR_DEV_CLOSED : Int := -7

/-- Trigger match kinds SR_TRIGGER_ZERO/ONE/RISING/FALLING/EDGE/OVER/UNDER
from libsigrok.h. OVER and UNDER are analog kinds that reach the switch
default branch of decode_trigger. -/
inductive SrTriggerKind where
  | zero
  | one
  | rising
  | falling
  | edge
  | over
  | under
deriving DecidableEq, Repr

/-- One entry of a trigger stage's match list (struct sr_trigger_match).
The field `chan` models `atoi(match->channel->name)`, the integer the C
code extracts from the channel's name; `match_` models the
`match->match` field (the word `match` is reserved in Lean). -/
structure SrTriggerMatch where
  chan : Int
  match_ : SrTriggerKind
deriving DecidableEq, Repr

/-- One trigger stage (struct sr_trigger_stage): its stage number and the
GSList of matches. The C field is named `matches`; that word is reserved
syntax in Lean, so the field is `match_list` here. -/
structure SrTriggerStage where
  stage : Int
  match_list : List SrTriggerMatch
deriving DecidableEq, Repr

/-- A trigger specification (struct sr_trigger): name and the GSList of
stages. A NULL trigger pointer is modelled as `Option.none` at use sites. -/
structure SrTrigger where
  name : String
  stages : List SrTriggerStage
deriving DecidableEq, Repr

/-- Abnormal process termination reachable in the embedded code. -/
inductive Crash where
  /-- decode_trigger reads `slist->data` before checking `slist != NULL`;
  a non-NULL trigger with an empty stage list dereferences NULL. -/
  | nullStageDeref
  /-- `assert(chan_no >= 0 && chan_no < 16)` in decode_trigger failed. -/
  | assertChanRange
  /-- `assert(devc->cur_samplerate != 0 && ...)` in
  digilent_analogdiscovery2_start failed. -/
  | assertSamplerate
  /-- `sdi->priv` was NULL where the C code dereferences it unchecked. -/
  | nullPrivDeref
deriving DecidableEq, Repr

/-- Observable outcome of decode_trigger: the four masks written through
the out-parameters, plus how many times sr_warn (staged-triggers warning)
and sr_err (unhandled trigger kind) fired. -/
structure DecodeOut where
  low_mask : Nat
  high_mask : Nat
  rise_mask : Nat
  fall_mask : Nat
  warnCount : Nat
  errCount : Nat
deriving DecidableEq, Repr

/-- The mask updates of one iteration of decode_trigger's inner match
loop, after the channel-range assert has passed. Mirrors the C switch:
ZERO, ONE, RISING set one mask each; EDGE sets rise_mask and then falls
through to the FALLING case, so it sets both rise_mask and fall_mask;
the default branch only logs sr_err. -/
def decode_match_bits (acc : DecodeOut) (m : SrTriggerMatch) : DecodeOut :=
  let bit := 1 <<< m.chan.toNat
  match m.match_ with
  | .zero => { acc with low_mask := acc.low_mask ||| bit }
  | .one => { acc with high_mask := acc.high_mask ||| bit }
  | .rising => { acc with rise_mask := acc.rise_mask ||| bit }
  | .edge =>
    { acc with
      rise_mask := acc.rise_mask ||| bit
      fall_mask := acc.fall_mask ||| bit }
  | .falling => { acc with fall_mask := acc.fall_mask ||| bit }
  | _ => { acc with errCount := acc.errCount + 1 }

/-- One iteration of decode_trigger's inner match loop: the channel-range
assert, then the switch on the match kind. -/
def decode_match (acc : DecodeOut) (m : SrTriggerMatch) : Except Crash DecodeOut :=
  if 0 ≤ m.chan ∧ m.chan < 16 then .ok (decode_match_bits acc m)
  else .error .assertChanRange

/-- The inner `while (mlist != NULL)` loop of decode_trigger over one
match list. -/
def decode_matches : List SrTriggerMatch → DecodeOut → Except Crash DecodeOut
  | [], acc => .ok acc
  | m :: rest, acc =>
    match decode_match acc m with
    | .error c => .error c
    | .ok acc2 => decode_matches rest acc2

/-- The outer `while (slist != NULL)` loop of decode_trigger. NOTE,
faithful to the source: the C code assigns `stage = slist->data` once,
before the loop, and never updates it inside the loop, so every
iteration re-processes `stage0.matches` (the first stage's matches),
regardless of which stage `slist` currently points at. After advancing
`slist`, the code emits the staged-triggers sr_warn whenever the new
`slist` is still non-NULL. -/
def decode_stage_loop (stage0 : SrTriggerStage) :
    List SrTriggerStage → DecodeOut → Except Crash DecodeOut
  | [], acc => .ok acc
  | _ :: rest, acc =>
    match decode_matches stage0.match_list acc with
    | .error c => .error c
    | .ok acc2 =>
      let acc3 := if rest.isEmpty then acc2
        else { acc2 with warnCount := acc2.warnCount + 1 }
      decode_stage_loop stage0 rest acc3

/-- decode_trigger: zero the four masks; if the trigger is NULL, done.
Otherwise read `stage = trigger->stages->data` (a NULL dereference when
the stage list is empty) and run the stage loop. -/
def decode_trigger : Option SrTrigger → Except Crash DecodeOut
  | none => .ok ⟨0, 0, 0, 0, 0, 0⟩
  | some t =>
    match t.stages with
    | [] => .error .nullStageDeref
    | st0 :: _ => decode_stage_loop st0 t.stages ⟨0, 0, 0, 0, 0, 0⟩

/-- acqmodeRecord from dwf.h. -/
def acqmodeRecord : Nat := 3

/-- trigsrcDetectorDigitalIn from dwf.h. -/
def trigsrcDetectorDigitalIn : Nat := 3

/-- The native FDwf configuration calls issued by
digilent_analogdiscovery2_start, with the arguments the code passes. -/
inductive NativeCall where
  | acquisitionModeSet (mode : Nat)
  | dividerSet (divisor : Nat)
  | sampleFormatSet (bits : Nat)
  | triggerPositionSet (count : Nat)
  | triggerSourceSet (src : Nat)
  | triggerSet (low high rise fall : Nat)
  | configure (reconfigure start : Bool)
deriving DecidableEq, Repr

/-- struct dev_context from protocol.h. cur_samplerate is uint64_t. -/
structure DevContext where
  enum_idx : Int
  is_opened : Bool
  hdwf : Int
  cur_samplerate : Nat
deriving DecidableEq, Repr

/-- Observable outcome of digilent_analogdiscovery2_start: the ordered
trace of native configuration calls issued, and whether the run ended in
a crash (assert failure) instead of returning. -/
structure StartOut where
  calls : List NativeCall
  crash : Option Crash
deriving DecidableEq, Repr

/-- digilent_analogdiscovery2_start. The argument `native_result` gives
the success/failure result each native FDwf call would report; faithful
to the source, the code never reads these results. Order, as in the C:
decode_trigger first, then FDwfDigitalInAcquisitionModeSet, then the
`assert(cur_samplerate != 0)`, then divider, sample format, trigger
position, trigger source, trigger masks, and configure(true, true). -/
def digilent_analogdiscovery2_start (devc : DevContext)
    (trigger : Option SrTrigger) (_native_result : NativeCall → Bool) :
    StartOut :=
  match decode_trigger trigger with
  | .error c => { calls := [], crash := some c }
  | .ok r =>
    let c1 : NativeCall := .acquisitionModeSet acqmodeRecord
    if devc.cur_samplerate = 0 then
      { calls := [c1], crash := some .assertSamplerate }
    else
      { calls := [c1,
          .dividerSet (100000000 / devc.cur_samplerate),
          .sampleFormatSet 16,
          .triggerPositionSet 100000,
          .triggerSourceSet trigsrcDetectorDigitalIn,
          .triggerSet r.low_mask r.high_mask r.rise_mask r.fall_mask,
          .configure true true],
        crash := none }

/-- Coarse DwfState acquisition states from dwf.h; the receive callback
compares the polled state against Config, Armed and Prefill. -/
inductive DwfState where
  | Ready
  | Config
  | Prefill
  | Armed
  | Wait
  | Triggered
  | Done
deriving DecidableEq, Repr

/-- Device status polled by FDwfDigitalInStatusRecord and
FDwfDigitalInStatus in one receive-callback invocation. -/
structure DwfDigitalInStatus where
  cAvail : Nat
  cLost : Nat
  cCorrupt : Nat
  state : DwfState
deriving DecidableEq, Repr

/-- The sr_datafeed_logic packet the callback sends: its length field
and unitsize field (the data bytes themselves are opaque here). -/
structure LogicPacket where
  length : Nat
  unitsize : Nat
deriving DecidableEq, Repr

/-- struct sr_dev_inst, restricted to the field the embedded functions
touch: the priv pointer to the driver's dev_context. -/
structure SrDevInst where
  priv : Option DevContext
deriving DecidableEq, Repr

/-- Observable outcome of one receive-callback invocation: packets sent
via sr_session_send, number of sr_err reports, and the boolean returned
to the event loop (TRUE = keep polling). -/
structure ReceiveOut where
  packets : List LogicPacket
  errCount : Nat
  ret : Bool
deriving DecidableEq, Repr

/-- digilent_analogdiscovery2_receive_data. cb_data is the (possibly
NULL) sr_dev_inst pointer; `status` is what the two native status
queries report for this invocation. Every path returns TRUE. -/
def digilent_analogdiscovery2_receive_data (cb_data : Option SrDevInst)
    (status : DwfDigitalInStatus) : ReceiveOut :=
  match cb_data with
  | none => { packets := [], errCount := 0, ret := true }
  | some sdi =>
    match sdi.priv with
    | none => { packets := [], errCount := 0, ret := true }
    | some _devc =>
      if status.cCorrupt ≠ 0 ∨ status.cLost ≠ 0 then
        { packets := [], errCount := 1, ret := true }
      else if status.cAvail = 0 ∨ status.state = .Config ∨
          status.state = .Armed ∨ status.state = .Prefill then
        { packets := [], errCount := 0, ret := true }
      else
        { packets := [{ length := status.cAvail * 2, unitsize := 2 }],
          errCount := 0, ret := true }

/-- digilent_analogdiscovery2_open. `native_success` is what
FDwfDeviceOpen reports and `native_handle` the handle it writes on
success. Returns the sr return code and the session state after the
call; dereferencing a NULL priv is a crash. -/
def digilent_analogdiscovery2_open (sdi : Option SrDevInst)
    (native_success : Bool) (native_handle : Int) :
    Except Crash (Int × Option SrDevInst) :=
  match sdi with
  | none => .ok (SR_ERR_ARG, none)
  | some s =>
    match s.priv with
    | none => .error .nullPrivDeref
    | some devc =>
      if devc.is_opened then
        .ok (SR_ERR_BUG, some s)
      else if native_success then
        .ok (SR_OK, some { s with
          priv := some { devc with hdwf := native_handle, is_opened := true } })
      else
        .ok (SR_ERR_BUG, some { s with
          priv := some { devc with is_opened := false } })

/-- Observable outcome of api.c's dev_acquisition_start: the return code
(none when the process aborted inside digilent_analogdiscovery2_start),
whether the poll source was registered and the DF header sent, the
native configuration-call trace, and any crash. -/
structure AcqStartOut where
  ret : Option Int
  sourceAdded : Bool
  headerSent : Bool
  calls : List NativeCall
  crash : Option Crash
deriving DecidableEq, Repr

/-- dev_acquisition_start from api.c. `trigger` models the value
sr_session_trigger_get returns for this session. Checks, in order:
sdi NULL, priv NULL, device not open; then registers the poll source,
sends the DF header, and calls digilent_analogdiscovery2_start. -/
def dev_acquisition_start (sdi : Option SrDevInst)
    (trigger : Option SrTrigger) (native_result : NativeCall → Bool) :
    AcqStartOut :=
  match sdi with
  | none => { ret := some SR_ERR_ARG, sourceAdded := false,
              headerSent := false, calls := [], crash := none }
  | some s =>
    match s.priv with
    | none => { ret := some SR_ERR_DEV_CLOSED, sourceAdded := false,
                headerSent := false, calls := [], crash := none }
    | some devc =>
      if devc.is_opened = false then
        { ret := some SR_ERR_DEV_CLOSED, sourceAdded := false,
          headerSent := false, calls := [], crash := none }
      else
        let st := digilent_analogdiscovery2_start devc trigger native_result
        { ret := if st.crash.isSome then none else some SR_OK,
          sourceAdded := true, headerSent := true,
          calls := st.calls, crash := st.crash }

/-- The samplerates[] table of api.c; SR_HZ(n) is n. -/
def samplerates : List Nat := [1, 10, 50, 100, 200]

/-- std_u64_idx: index of value `d` in the array, or -1 when absent. -/
def std_u64_idx (d : Nat) : List Nat → Int
  | [] => -1
  | x :: rest =>
    if x = d then 0
    else
      let r := std_u64_idx d rest
      if r < 0 then -1 else r + 1

/-- The SR_CONF_SAMPLERATE branch of api.c's config_set: validate the
requested value against samplerates[] via std_u64_idx and, if valid,
store samplerates[idx] into cur_samplerate; otherwise SR_ERR_ARG and no
change. -/
def config_set_samplerate (devc : DevContext) (d : Nat) : Int × DevContext :=
  let idx := std_u64_idx d samplerates
  if idx < 0 then (SR_ERR_ARG, devc)
  else (SR_OK, { devc with cur_samplerate := samplerates.getD idx.toNat 0 })

/-- The samplerate digilent_analogdiscovery2_scan stores into a fresh
dev_context: `devc->cur_samplerate = SR_HZ(100)`. -/
def scan_init_samplerate : Nat := 100

/-- The values cur_samplerate can hold in a session driven through this
driver: initialized by scan, and rewritten only by config_set's
samplerate branch. -/
inductive ReachableRate : Nat → Prop where
  | init : ReachableRate scan_init_samplerate
  | step (devc : DevContext) (d : Nat) :
      ReachableRate devc.cur_samplerate →
      ReachableRate (config_set_samplerate devc d).2.cur_samplerate

/-! Helper lemmas about the trigger decoder. -/

/-- Bitwise OR into an accumulator can be reordered. -/
theorem lor_right_comm (a b c : Nat) : a ||| b ||| c = a ||| c ||| b := by
  rw [Nat.lor_assoc, Nat.lor_comm b c, Nat.lor_assoc]

/-- When every channel in the list passes the range assert, the match
loop succeeds and computes the pure fold of the mask updates. -/
theorem decode_matches_ok (ms : List SrTriggerMatch) (acc : DecodeOut)
    (h : ∀ m ∈ ms, 0 ≤ m.chan ∧ m.chan < 16) :
    decode_matches ms acc = .ok (ms.foldl decode_match_bits acc) := by
  induction ms generalizing acc with
  | nil => rfl
  | cons m rest ih =>
    have hm := h m (List.mem_cons_self m rest)
    simp only [decode_matches, decode_match, if_pos hm, List.foldl_cons]
    exact ih _ fun x hx => h x (List.mem_cons_of_mem m hx)

/-- A match list holding an out-of-range channel makes the match loop
fail the channel-range assert. -/
theorem decode_matches_err (ms : List SrTriggerMatch) (acc : DecodeOut)
    (h : ∃ m ∈ ms, ¬(0 ≤ m.chan ∧ m.chan < 16)) :
    decode_matches ms acc = .error .assertChanRange := by
  induction ms generalizing acc with
  | nil => simp at h
  | cons m rest ih =>
    by_cases hm : 0 ≤ m.chan ∧ m.chan < 16
    · simp only [decode_matches, decode_match, if_pos hm]
      apply ih
      rcases h with ⟨x, hx, hbad⟩
      rcases List.mem_cons.mp hx with rfl | hx2
      · exact absurd hm hbad
      · exact ⟨x, hx2, hbad⟩
    · simp only [decode_matches, decode_match, if_neg hm]

/-- On a one-stage trigger, decode_trigger is exactly the match loop on
that stage's match list (one outer-loop iteration, no warning). -/
theorem decode_trigger_single (name : String) (sno : Int)
    (ms : List SrTriggerMatch) :
    decode_trigger (some ⟨name, [⟨sno, ms⟩]⟩) =
      decode_matches ms ⟨0, 0, 0, 0, 0, 0⟩ := by
  show decode_stage_loop ⟨sno, ms⟩ [⟨sno, ms⟩] ⟨0, 0, 0, 0, 0, 0⟩ = _
  cases h : decode_matches ms ⟨0, 0, 0, 0, 0, 0⟩ with
  | error c => simp [decode_stage_loop, h]
  | ok acc2 => simp [decode_stage_loop, h]

/-- The mask update of a single match commutes with that of another. -/
theorem decode_match_bits_comm (z : DecodeOut) (a b : SrTriggerMatch) :
    decode_match_bits (decode_match_bits z a) b =
      decode_match_bits (decode_match_bits z b) a := by
  obtain ⟨ca, ka⟩ := a
  obtain ⟨cb, kb⟩ := b
  obtain ⟨l, h, r, f, w, e⟩ := z
  cases ka <;> cases kb <;>
    simp [decode_match_bits, lor_right_comm, Nat.add_right_comm]

/-- The match loop errors are always the channel-range assert. -/
theorem decode_matches_error_kind (ms : List SrTriggerMatch)
    (acc : DecodeOut) (c : Crash)
    (h : decode_matches ms acc = .error c) : c = .assertChanRange := by
  induction ms generalizing acc with
  | nil => simp [decode_matches] at h
  | cons m rest ih =>
    by_cases hm : 0 ≤ m.chan ∧ m.chan < 16
    · simp only [decode_matches, decode_match, if_pos hm] at h
      exact ih _ h
    · simp only [decode_matches, decode_match, if_neg hm,
        Except.error.injEq] at h
      exact h.symm

/-- The stage loop errors are always the channel-range assert. -/
theorem decode_stage_loop_error_kind (st0 : SrTriggerStage)
    (l : List SrTriggerStage) (acc : DecodeOut) (c : Crash)
    (h : decode_stage_loop st0 l acc = .error c) : c = .assertChanRange := by
  induction l generalizing acc with
  | nil => simp [decode_stage_loop] at h
  | cons s rest ih =>
    simp only [decode_stage_loop] at h
    cases hd : decode_matches st0.match_list acc with
    | error c2 =>
      rw [hd] at h
      simp only [Except.error.injEq] at h
      rw [← h]
      exact decode_matches_error_kind _ _ _ hd
    | ok acc2 =>
      rw [hd] at h
      exact ih _ h

/-- decode_trigger never fails the samplerate assert (that assert lives
in digilent_analogdiscovery2_start). -/
theorem decode_trigger_no_samplerate_crash (t : Option SrTrigger) (c : Crash)
    (h : decode_trigger t = .error c) : c ≠ .assertSamplerate := by
  cases t with
  | none => simp [decode_trigger] at h
  | some tr =>
    cases hs : tr.stages with
    | nil =>
      simp only [decode_trigger, hs, Except.error.injEq] at h
      rw [← h]
      decide
    | cons st0 rest =>
      simp only [decode_trigger, hs] at h
      rw [decode_stage_loop_error_kind _ _ _ _ h]
      decide

/-! Claim theorems. -/

/-- C1: behaviour of decode_trigger on multi-stage specifications. The
two-stage specification {stage 0: channel 0 MatchZero; stage 1: channel
1 MatchOne} yields low_mask=1 and high_mask=0 — stage 1's MatchOne is
dropped, so the masks are NOT the union over all stages (the union
would set high_mask=2) — and one warning. A three-stage specification
warns twice, not once. The outer loop never advances its `stage`
variable, so each iteration re-reads the first stage's match list. -/
theorem C1_multistage_first_stage_only :
    (decode_trigger (some ⟨"t",
        [⟨0, [⟨0, .zero⟩]⟩, ⟨1, [⟨1, .one⟩]⟩]⟩) =
      .ok ⟨1, 0, 0, 0, 1, 0⟩) ∧
    (decode_trigger (some ⟨"t",
        [⟨0, [⟨0, .zero⟩]⟩, ⟨1, [⟨1, .one⟩]⟩, ⟨2, [⟨2, .rising⟩]⟩]⟩) =
      .ok ⟨1, 0, 0, 0, 2, 0⟩) :=
  ⟨rfl, rfl⟩

/-- C4 counterexample: a match pair on channel 16 makes trigger encoding
fail the assert `chan_no >= 0 && chan_no < 16`, i.e. it aborts the
process; decode_trigger has no error-return channel at all, so no
InvalidArgument error is produced. -/
theorem C4_counterexample :
    decode_trigger (some ⟨"t", [⟨0, [⟨16, .zero⟩]⟩]⟩) =
      .error .assertChanRange :=
  rfl

/-- C4 amended: for every one-stage trigger specification holding a
match pair whose channel index is outside [0,16), trigger encoding
aborts via the channel-range assertion (process abort), instead of
failing with an InvalidArgument error. -/
theorem C4_out_of_range_channel_assert (name : String) (sno : Int)
    (ms : List SrTriggerMatch)
    (h : ∃ m ∈ ms, ¬(0 ≤ m.chan ∧ m.chan < 16)) :
    decode_trigger (some ⟨name, [⟨sno, ms⟩]⟩) = .error .assertChanRange := by
  rw [decode_trigger_single]
  exact decode_matches_err ms _ h

/-- C4 amended witness: channel -1 aborts the encoder. -/
theorem C4_out_of_range_channel_assert_witness :
    decode_trigger (some ⟨"w", [⟨7, [⟨-1, .one⟩]⟩]⟩) =
      .error .assertChanRange :=
  C4_out_of_range_channel_assert "w" 7 [⟨-1, .one⟩]
    ⟨⟨-1, .one⟩, by simp, by decide⟩

/-- C5: for a channel index c in [0,16), a one-stage one-pair
specification maps MatchZero to low_mask only, MatchOne to high_mask
only, MatchRising to rise_mask only, MatchFalling to fall_mask only,
and MatchEdge to both rise_mask and fall_mask and nothing else; and the
specification {channel 3: MatchRising, channel 5: MatchZero} yields
low=32, high=0, rise=8, fall=0. -/
theorem C5_match_kind_mask_semantics (c : Int) (h0 : 0 ≤ c) (h1 : c < 16) :
    (decode_trigger (some ⟨"t", [⟨0, [⟨c, .zero⟩]⟩]⟩) =
      .ok ⟨1 <<< c.toNat, 0, 0, 0, 0, 0⟩) ∧
    (decode_trigger (some ⟨"t", [⟨0, [⟨c, .one⟩]⟩]⟩) =
      .ok ⟨0, 1 <<< c.toNat, 0, 0, 0, 0⟩) ∧
    (decode_trigger (some ⟨"t", [⟨0, [⟨c, .rising⟩]⟩]⟩) =
      .ok ⟨0, 0, 1 <<< c.toNat, 0, 0, 0⟩) ∧
    (decode_trigger (some ⟨"t", [⟨0, [⟨c, .falling⟩]⟩]⟩) =
      .ok ⟨0, 0, 0, 1 <<< c.toNat, 0, 0⟩) ∧
    (decode_trigger (some ⟨"t", [⟨0, [⟨c, .edge⟩]⟩]⟩) =
      .ok ⟨0, 0, 1 <<< c.toNat, 1 <<< c.toNat, 0, 0⟩) ∧
    (decode_trigger (some ⟨"t", [⟨0, [⟨3, .rising⟩, ⟨5, .zero⟩]⟩]⟩) =
      .ok ⟨32, 0, 8, 0, 0, 0⟩) := by
  refine ⟨?_, ?_, ?_, ?_, ?_, rfl⟩ <;>
  · rw [decode_trigger_single, decode_matches_ok]
    · simp [decode_match_bits]
    · intro m hm
      rw [List.mem_singleton] at hm
      subst hm
      exact ⟨h0, h1⟩

/-- C5 witness at channel 3 (MatchRising case). -/
theorem C5_match_kind_mask_semantics_witness :
    decode_trigger (some ⟨"t", [⟨0, [⟨3, .rising⟩]⟩]⟩) =
      .ok ⟨0, 0, 8, 0, 0, 0⟩ :=
  (C5_match_kind_mask_semantics 3 (by decide) (by decide)).2.2.1

/-- C9: for one-stage trigger specifications (with all channels passing
the range assert), the decoder's outcome is invariant under any
permutation of the match pairs within the stage. -/
theorem C9_mask_perm_invariant (name1 name2 : String) (sno1 sno2 : Int)
    (ms1 ms2 : List SrTriggerMatch) (hperm : ms1.Perm ms2)
    (h : ∀ m ∈ ms1, 0 ≤ m.chan ∧ m.chan < 16) :
    decode_trigger (some ⟨name1, [⟨sno1, ms1⟩]⟩) =
      decode_trigger (some ⟨name2, [⟨sno2, ms2⟩]⟩) := by
  rw [decode_trigger_single, decode_trigger_single,
    decode_matches_ok ms1 _ h,
    decode_matches_ok ms2 _ (fun m hm => h m (hperm.mem_iff.mpr hm)),
    hperm.foldl_eq' fun x _ y _ z => decode_match_bits_comm z x y]

/-- C9 witness: swapping the two pairs of the C5 scenario does not
change the masks. -/
theorem C9_mask_perm_invariant_witness :
    decode_trigger (some ⟨"a", [⟨0, [⟨3, .rising⟩, ⟨5, .zero⟩]⟩]⟩) =
      decode_trigger (some ⟨"b", [⟨0, [⟨5, .zero⟩, ⟨3, .rising⟩]⟩]⟩) :=
  C9_mask_perm_invariant "a" "b" 0 0 _ _ (by decide) (by decide)

/-- C2 counterexample: starting an open session with cur_samplerate = 0
does not fail with an error code and does not issue zero native calls:
one native configuration call (set record acquisition mode) is issued,
and then the process aborts on the samplerate assertion (ret = none
models the abort; no sr error code is returned). -/
theorem C2_counterexample :
    (dev_acquisition_start (some ⟨some ⟨0, true, 5, 0⟩⟩) none
        fun _ => true).calls.length = 1 ∧
    dev_acquisition_start (some ⟨some ⟨0, true, 5, 0⟩⟩) none
        (fun _ => true) =
      { ret := none, sourceAdded := true, headerSent := true,
        calls := [.acquisitionModeSet acqmodeRecord],
        crash := some .assertSamplerate } :=
  ⟨rfl, rfl⟩

/-- C2 amended: starting an open session with cur_samplerate = 0 (and a
trigger the decoder accepts) aborts on the assertion
`cur_samplerate != 0` instead of returning an error code; exactly one
native configuration call — setting record acquisition mode — has been
issued before the abort, and the divider computation
100000000/cur_samplerate is never reached. -/
theorem C2_zero_rate_assert_after_mode_set (s : SrDevInst)
    (devc : DevContext) (trigger : Option SrTrigger)
    (env : NativeCall → Bool) (r : DecodeOut)
    (hpriv : s.priv = some devc) (hopen : devc.is_opened = true)
    (hrate : devc.cur_samplerate = 0)
    (hdec : decode_trigger trigger = .ok r) :
    dev_acquisition_start (some s) trigger env =
      { ret := none, sourceAdded := true, headerSent := true,
        calls := [.acquisitionModeSet acqmodeRecord],
        crash := some .assertSamplerate } ∧
    ∀ n, NativeCall.dividerSet n ∉
      (dev_acquisition_start (some s) trigger env).calls := by
  have h1 : dev_acquisition_start (some s) trigger env =
      { ret := none, sourceAdded := true, headerSent := true,
        calls := [.acquisitionModeSet acqmodeRecord],
        crash := some .assertSamplerate } := by
    obtain ⟨p⟩ := s
    have hp2 : p = some devc := hpriv
    subst hp2
    simp [dev_acquisition_start, digilent_analogdiscovery2_start,
      hdec, hopen, hrate]
  refine ⟨h1, ?_⟩
  intro n
  rw [h1]
  simp

/-- C2 amended witness at a concrete open zero-rate session. -/
theorem C2_zero_rate_assert_after_mode_set_witness :
    dev_acquisition_start (some ⟨some ⟨1, true, 7, 0⟩⟩) none
        (fun _ => false) =
      { ret := none, sourceAdded := true, headerSent := true,
        calls := [.acquisitionModeSet acqmodeRecord],
        crash := some .assertSamplerate } :=
  (C2_zero_rate_assert_after_mode_set ⟨some ⟨1, true, 7, 0⟩⟩
    ⟨1, true, 7, 0⟩ none (fun _ => false) ⟨0, 0, 0, 0, 0, 0⟩
    rfl rfl rfl rfl).1

/-- C3 counterexample: in an environment where the native divider call
reports failure, digilent_analogdiscovery2_start still issues all seven
configuration calls (nothing short-circuits after the failing divider
call) and reports no failure at all — the code never reads the native
results. -/
theorem C3_counterexample :
    digilent_analogdiscovery2_start ⟨0, true, 5, 100⟩ none
        (fun c => match c with
          | .dividerSet _ => false
          | _ => true) =
      { calls := [
          .acquisitionModeSet acqmodeRecord,
          .dividerSet 1000000,
          .sampleFormatSet 16,
          .triggerPositionSet 100000,
          .triggerSourceSet trigsrcDetectorDigitalIn,
          .triggerSet 0 0 0 0,
          .configure true true],
        crash := none } ∧
    (fun c => match c with
      | NativeCall.dividerSet _ => false
      | _ => true) (NativeCall.dividerSet 1000000) = false :=
  ⟨rfl, rfl⟩

/-- C3 amended: with a nonzero samplerate and a trigger the decoder
accepts, digilent_analogdiscovery2_start issues the seven configuration
steps in the stated order (record mode, divider, 16-bit format,
post-trigger count, digital trigger source, four trigger masks,
configure-and-run) — but unconditionally: the native calls' results are
ignored, execution never short-circuits, and no failure is reported. -/
theorem C3_steps_in_order_no_short_circuit (devc : DevContext)
    (trigger : Option SrTrigger) (env : NativeCall → Bool) (r : DecodeOut)
    (hdec : decode_trigger trigger = .ok r)
    (hrate : devc.cur_samplerate ≠ 0) :
    digilent_analogdiscovery2_start devc trigger env =
      { calls := [
          .acquisitionModeSet acqmodeRecord,
          .dividerSet (100000000 / devc.cur_samplerate),
          .sampleFormatSet 16,
          .triggerPositionSet 100000,
          .triggerSourceSet trigsrcDetectorDigitalIn,
          .triggerSet r.low_mask r.high_mask r.rise_mask r.fall_mask,
          .configure true true],
        crash := none } := by
  unfold digilent_analogdiscovery2_start
  rw [hdec]
  simp [hrate]

/-- C3 amended witness: concrete 100 Hz session, no trigger, an
environment failing every native call — the full trace still occurs. -/
theorem C3_steps_in_order_no_short_circuit_witness :
    digilent_analogdiscovery2_start ⟨0, true, 5, 100⟩ none
        (fun _ => false) =
      { calls := [
          .acquisitionModeSet acqmodeRecord,
          .dividerSet 1000000,
          .sampleFormatSet 16,
          .triggerPositionSet 100000,
          .triggerSourceSet trigsrcDetectorDigitalIn,
          .triggerSet 0 0 0 0,
          .configure true true],
        crash := none } :=
  C3_steps_in_order_no_short_circuit ⟨0, true, 5, 100⟩ none
    (fun _ => false) ⟨0, 0, 0, 0, 0, 0⟩ rfl (by decide)

/-- Unfolding of the receive callback on a session with a valid priv
pointer: only the two status checks remain. -/
theorem receive_data_some (devc : DevContext) (status : DwfDigitalInStatus) :
    digilent_analogdiscovery2_receive_data (some ⟨some devc⟩) status =
      if status.cCorrupt ≠ 0 ∨ status.cLost ≠ 0 then
        { packets := [], errCount := 1, ret := true }
      else if status.cAvail = 0 ∨ status.state = .Config ∨
          status.state = .Armed ∨ status.state = .Prefill then
        { packets := [], errCount := 0, ret := true }
      else
        { packets := [{ length := status.cAvail * 2, unitsize := 2 }],
          errCount := 0, ret := true } :=
  rfl

/-- C6: when a receive-callback invocation on a valid session finds no
lost and no corrupt samples, a positive available-sample count, and a
state outside {Config, Armed, Prefill}, it sends exactly one logic
packet of length cAvail*2 bytes with unitsize 2 and keeps polling. -/
theorem C6_available_samples_one_packet (sdi : SrDevInst)
    (devc : DevContext) (status : DwfDigitalInStatus)
    (hpriv : sdi.priv = some devc) (hlost : status.cLost = 0)
    (hcorrupt : status.cCorrupt = 0) (havail : 0 < status.cAvail)
    (hc : status.state ≠ .Config) (ha : status.state ≠ .Armed)
    (hp : status.state ≠ .Prefill) :
    digilent_analogdiscovery2_receive_data (some sdi) status =
      { packets := [{ length := status.cAvail * 2, unitsize := 2 }],
        errCount := 0, ret := true } := by
  obtain ⟨p⟩ := sdi
  have hp2 : p = some devc := hpriv
  subst hp2
  rw [receive_data_some,
    if_neg (by simp [hlost, hcorrupt]),
    if_neg (by simp [Nat.pos_iff_ne_zero.mp havail, hc, ha, hp])]

/-- C6 witness: available=512 in state Done yields one packet with
length 1024 and unitsize 2. -/
theorem C6_available_samples_one_packet_witness :
    digilent_analogdiscovery2_receive_data (some ⟨some ⟨0, true, 5, 100⟩⟩)
        ⟨512, 0, 0, .Done⟩ =
      { packets := [{ length := 1024, unitsize := 2 }],
        errCount := 0, ret := true } :=
  C6_available_samples_one_packet ⟨some ⟨0, true, 5, 100⟩⟩
    ⟨0, true, 5, 100⟩ ⟨512, 0, 0, .Done⟩ rfl rfl rfl (by decide)
    (by decide) (by decide) (by decide)

/-- C7: every receive-callback invocation returns TRUE (continue
polling), whatever the device status; on a valid session, lost or
corrupt samples are reported with one sr_err and no packet is sent, and
a zero available count or a state in {Config, Armed, Prefill} sends no
packet either — still returning TRUE. -/
theorem C7_always_continue_polling (cb : Option SrDevInst)
    (status : DwfDigitalInStatus) :
    (digilent_analogdiscovery2_receive_data cb status).ret = true ∧
    (∀ sdi devc, cb = some sdi → sdi.priv = some devc →
      ((status.cLost ≠ 0 ∨ status.cCorrupt ≠ 0) →
        digilent_analogdiscovery2_receive_data cb status =
          { packets := [], errCount := 1, ret := true }) ∧
      ((status.cLost = 0 ∧ status.cCorrupt = 0 ∧
          (status.cAvail = 0 ∨ status.state = .Config ∨
            status.state = .Armed ∨ status.state = .Prefill)) →
        digilent_analogdiscovery2_receive_data cb status =
          { packets := [], errCount := 0, ret := true })) := by
  constructor
  · cases cb with
    | none => rfl
    | some sdi =>
      obtain ⟨p⟩ := sdi
      cases p with
      | none => rfl
      | some devc =>
        rw [receive_data_some]
        split
        · rfl
        · split <;> rfl
  · rintro sdi devc rfl hp
    obtain ⟨p⟩ := sdi
    have hp2 : p = some devc := hp
    subst hp2
    constructor
    · intro hfault
      rw [receive_data_some, if_pos hfault.symm]
    · rintro ⟨hl, hc, hrest⟩
      rw [receive_data_some, if_neg (by simp [hl, hc]), if_pos hrest]

/-- C7 witness: two lost samples in state Done report one sr_err, send
no packet, and keep polling. -/
theorem C7_always_continue_polling_witness :
    digilent_analogdiscovery2_receive_data (some ⟨some ⟨0, true, 5, 100⟩⟩)
        ⟨7, 2, 0, .Done⟩ =
      { packets := [], errCount := 1, ret := true } :=
  ((C7_always_continue_polling (some ⟨some ⟨0, true, 5, 100⟩⟩)
      ⟨7, 2, 0, .Done⟩).2 ⟨some ⟨0, true, 5, 100⟩⟩ ⟨0, true, 5, 100⟩
      rfl rfl).1 (Or.inl (by decide))

/-- C8: opening a session whose open flag is already true returns
SR_ERR_BUG (an error: SR_ERR_BUG differs from SR_OK) without any state
change — the returned session is exactly the input, so the open flag
and the native handle hdwf are untouched; the native open call is never
reached. -/
theorem C8_open_already_open_unchanged (s : SrDevInst) (devc : DevContext)
    (native_success : Bool) (native_handle : Int)
    (hpriv : s.priv = some devc) (hopen : devc.is_opened = true) :
    digilent_analogdiscovery2_open (some s) native_success native_handle =
      .ok (SR_ERR_BUG, some s) ∧ SR_ERR_BUG ≠ SR_OK := by
  refine ⟨?_, by decide⟩
  obtain ⟨p⟩ := s
  have hp2 : p = some devc := hpriv
  subst hp2
  simp [digilent_analogdiscovery2_open, hopen]

/-- C8 witness on a concrete open session. -/
theorem C8_open_already_open_unchanged_witness :
    digilent_analogdiscovery2_open (some ⟨some ⟨2, true, 9, 100⟩⟩)
        true 55 =
      .ok (SR_ERR_BUG, some ⟨some ⟨2, true, 9, 100⟩⟩) :=
  (C8_open_already_open_unchanged ⟨some ⟨2, true, 9, 100⟩⟩
    ⟨2, true, 9, 100⟩ true 55 rfl rfl).1

/-- The index std_u64_idx returns is either -1 or a valid index whose
array entry is the looked-up value. -/
theorem std_u64_idx_spec (d : Nat) (l : List Nat) :
    std_u64_idx d l = -1 ∨
    ∃ i : Nat, std_u64_idx d l = (i : Int) ∧ l.getD i 0 = d ∧ d ∈ l := by
  induction l with
  | nil => exact Or.inl rfl
  | cons x rest ih =>
    by_cases hx : x = d
    · exact Or.inr ⟨0, by simp [std_u64_idx, hx], by simp [hx], by simp [hx]⟩
    · rcases ih with h | ⟨i, hi, hget, hmem⟩
      · left
        simp [std_u64_idx, hx, h]
      · right
        refine ⟨i + 1, ?_, by simpa using hget,
          List.mem_cons_of_mem x hmem⟩
        simp only [std_u64_idx, if_neg hx, hi]
        rw [if_neg (by omega)]
        push_cast
        ring

/-- C10: every cur_samplerate value reachable through scan
initialization and config_set's samplerate branch is an element of
samplerates[] — hence nonzero — and the samplerate assertion guarding
the divider division in digilent_analogdiscovery2_start can never fire
for such a session. -/
theorem C10_samplerate_invariant (r : Nat) (h : ReachableRate r) :
    r ∈ samplerates ∧ r ≠ 0 ∧
    ∀ devc trigger env, devc.cur_samplerate = r →
      (digilent_analogdiscovery2_start devc trigger env).crash ≠
        some .assertSamplerate := by
  have hmem : r ∈ samplerates := by
    induction h with
    | init => decide
    | step devc d hr ih =>
      unfold config_set_samplerate
      rcases std_u64_idx_spec d samplerates with h1 | ⟨i, hi, hget, hm⟩
      · rw [h1, if_pos (by decide)]
        exact ih
      · rw [hi, if_neg (by omega)]
        show samplerates.getD ((i : Int)).toNat 0 ∈ samplerates
        rw [Int.toNat_natCast, hget]
        exact hm
  have hne : r ≠ 0 := by
    intro h0
    rw [h0] at hmem
    simp [samplerates] at hmem
  refine ⟨hmem, hne, ?_⟩
  intro devc trigger env hrate
  unfold digilent_analogdiscovery2_start
  cases hd : decode_trigger trigger with
  | error c =>
    simp only
    intro hcrash
    simp only [Option.some.injEq] at hcrash
    exact decode_trigger_no_samplerate_crash trigger c hd hcrash
  | ok rr =>
    simp only
    rw [if_neg (hrate ▸ hne)]
    simp

/-- C10 witness at the scan-time initial rate of 100 Hz. -/
theorem C10_samplerate_invariant_witness :
    100 ∈ samplerates ∧ (100 : Nat) ≠ 0 :=
  ⟨(C10_samplerate_invariant 100 ReachableRate.init).1,
    (C10_samplerate_invariant 100 ReachableRate.init).2.1⟩

end AD2
